import Mathlib

/-!
Shallow embedding of `src/GenerateModel.cpp` (light-curve model generation).

Floating-point `double` arithmetic is modelled by real arithmetic; `pow` is
`Real.rpow`, `sqrt` is `Real.sqrt`, `acos` is `Real.arccos`, `modf` extracts
the fractional part with the sign of the argument.  Division by zero follows
Lean's convention `x / 0 = 0`.  The physical constants `AU`, `rSun`, `rJup`
and `secondsInDay` live in `constants.h`, which is outside this translation
unit; they are taken as parameters (a `Consts` record), while
`radiansInDegree = pi / 180` is fixed as documented.
-/

open scoped Classical

noncomputable section

/-- `square` from the anonymous namespace: `val * val`. -/
def square (x : ℝ) : ℝ := x * x

/-- `calcOmega`: `for (n = 0; n <= 4; ++n) returnval += coeffs.at(n) / (n + 4.)`. -/
def calcOmega (coeffs : Fin 5 → ℝ) : ℝ :=
  ∑ n : Fin 5, coeffs n / (((n : ℕ) : ℝ) + 4)

/-- The four-argument intensity `I(r, c1, c2, c3, c4)`:
`rprimed = 1 - r^2` and `I = 1 - Σ cn * (1 - rprimed^(n/4))`. -/
def I4 (r c1 c2 c3 c4 : ℝ) : ℝ :=
  1 - c1 * (1 - (1 - square r) ^ ((1 : ℝ) / 4))
    - c2 * (1 - (1 - square r) ^ ((2 : ℝ) / 4))
    - c3 * (1 - (1 - square r) ^ ((3 : ℝ) / 4))
    - c4 * (1 - (1 - square r) ^ ((4 : ℝ) / 4))

/-- The vector overload `I(r, coeffs)`: the source reads
`c1 = coeffs.at(0); c2 = coeffs.at(1); c3 = coeffs.at(2); c4 = coeffs.at(3)`. -/
def Ivec (r : ℝ) (coeffs : Fin 5 → ℝ) : ℝ :=
  I4 r (coeffs 0) (coeffs 1) (coeffs 2) (coeffs 3)

/-- Number of iterations of `for (double r = rlow; r <= rhigh; r += dr)` in real
arithmetic: the terms visited are `rlow + k*dr` for `k ≤ (rhigh - rlow)/dr`
(none when `rhigh < rlow`); requires `dr > 0` to be meaningful, as in the
source where `dr = 0.001`. -/
def numSteps (dr rlow rhigh : ℝ) : ℕ :=
  if rlow ≤ rhigh then ⌊(rhigh - rlow) / dr⌋₊ + 1 else 0

/-- `IntegratedI(dr, c1, c2, c3, c4, rlow, rhigh)`: fixed-step rectangle sum
`sum += I(r, c1, c2, c3, c4) * dr * 2 * r` over the loop of `numSteps`. -/
def IntegratedI (dr c1 c2 c3 c4 rlow rhigh : ℝ) : ℝ :=
  ∑ k ∈ Finset.range (numSteps dr rlow rhigh),
    I4 (rlow + (k : ℝ) * dr) c1 c2 c3 c4 * dr * 2 * (rlow + (k : ℝ) * dr)

/-- The vector overload `IntegratedI(dr, coeffs, rlow, rhigh)`: reads
entries 0..3 of `coeffs`, as in the source. -/
def IntegratedIvec (dr : ℝ) (coeffs : Fin 5 → ℝ) (rlow rhigh : ℝ) : ℝ :=
  IntegratedI dr (coeffs 0) (coeffs 1) (coeffs 2) (coeffs 3) rlow rhigh

/-- The model-parameter record (`Model.h` collaborator, fields as used by
`GenerateSynthetic`). -/
structure Model where
  a : ℝ
  rs : ℝ
  rp : ℝ
  period : ℝ
  epoch : ℝ
  i : ℝ
  c1 : ℝ
  c2 : ℝ
  c3 : ℝ
  c4 : ℝ

/-- The external physical constants from `constants.h` (outside this core;
kept abstract). -/
structure Consts where
  AU : ℝ
  rSun : ℝ
  rJup : ℝ
  secondsInDay : ℝ

/-- Packaging of the coefficients in `GenerateSynthetic`:
`coeffs[1..4] = c1..c4`, `coeffs[0] = 1 - c1 - c2 - c3 - c4`. -/
def mkCoeffs (c1 c2 c3 c4 : ℝ) : Fin 5 → ℝ :=
  ![1 - c1 - c2 - c3 - c4, c1, c2, c3, c4]

/-- `const double dr = 0.001`. -/
def dr : ℝ := 0.001

/-- `normalisedDistance = m.a * AU / (m.rs * rSun)`. -/
def normalisedDistance (K : Consts) (m : Model) : ℝ := m.a * K.AU / (m.rs * K.rSun)

/-- The coefficient vector built from a model. -/
def coeffsOf (m : Model) : Fin 5 → ℝ := mkCoeffs m.c1 m.c2 m.c3 m.c4

/-- `omega = calcOmega(coeffs)`. -/
def omegaOf (m : Model) : ℝ := calcOmega (coeffsOf m)

/-- `angFreq = 2 * M_PI / (m.period * secondsInDay)`. -/
def angFreq (K : Consts) (m : Model) : ℝ := 2 * Real.pi / (m.period * K.secondsInDay)

/-- `cosi = cos(m.i * radiansInDegree)` with `radiansInDegree = pi / 180`. -/
def cosiOf (m : Model) : ℝ := Real.cos (m.i * (Real.pi / 180))

/-- `p = (m.rp * rJup) / (m.rs * rSun)`. -/
def pOf (K : Consts) (m : Model) : ℝ := m.rp * K.rJup / (m.rs * K.rSun)

/-- `t = (jd.at(i) - m.epoch) * secondsInDay`. -/
def tOf (K : Consts) (m : Model) (jd : ℝ) : ℝ := (jd - m.epoch) * K.secondsInDay

/-- `z = normalisedDistance * sqrt(sin(angFreq*t)^2 + (cosi * cos(angFreq*t))^2)`. -/
def zOf (K : Consts) (m : Model) (jd : ℝ) : ℝ :=
  normalisedDistance K m *
    Real.sqrt (square (Real.sin (angFreq K m * tOf K m jd)) +
      square (cosiOf m * Real.cos (angFreq K m * tOf K m jd)))

/-- C `trunc` (the integral part that `modf` removes): floor for nonnegative
arguments, ceiling for negative ones. -/
def cTrunc (x : ℝ) : ℝ := if 0 ≤ x then (⌊x⌋ : ℝ) else (⌈x⌉ : ℝ)

/-- Fractional part returned by `modf`, with the sign of the argument. -/
def modfFrac (x : ℝ) : ℝ := x - cTrunc x

/-- The folded phase: `phase = fabs(modf(t / (period * secondsInDay), &intpart))`
followed by `phase = phase > 0.5 ? phase - 1.0 : phase`. -/
def phaseOf (K : Consts) (m : Model) (jd : ℝ) : ℝ :=
  let ph := |modfFrac (tOf K m jd / (m.period * K.secondsInDay))|
  if ph > 0.5 then ph - 1 else ph

/-- The per-timestamp flux computation of `GenerateSynthetic`, as a function of
the precomputed coefficients and `omega`, the radius ratio `p`, and the
per-timestamp `z` and `phase`.  Mirrors the three-regime `if` cascade inside
the eclipse-window gate `(phase > -0.25) && (phase < 0.25)`. -/
def fluxCore (coeffs : Fin 5 → ℝ) (omega p z phase : ℝ) : ℝ :=
  if phase > -0.25 ∧ phase < 0.25 then
    if z ≤ 1 - p then
      1 - square p * (IntegratedIvec dr coeffs (z - p) (z + p) * (1 / (4 * z * p))) / 4 / omega
    else if z > 1 + p then 1
    else
      1 - IntegratedIvec dr coeffs (z - p) 1 * (1 / (1 - square (z - p))) *
            (square p * Real.arccos ((z - 1) / p) -
              Real.sqrt (square p - square (z - 1)) * (z - 1)) /
          (4 * Real.pi * omega)
  else 1

/-- The flux `F` that `GenerateSynthetic` pushes onto `Flux` for one timestamp. -/
def fluxAt (K : Consts) (m : Model) (jd : ℝ) : ℝ :=
  fluxCore (coeffsOf m) (omegaOf m) (pOf K m) (zOf K m jd) (phaseOf K m jd)

/-- `GenerateSynthetic(jd, m)`: the loop pushes one flux value per input
timestamp, in order. -/
def GenerateSynthetic (K : Consts) (jd : List ℝ) (m : Model) : List ℝ :=
  jd.map (fun x => fluxAt K m x)

/-- The Intensity Profile exactly as the specification writes it:
`I(r) = 1 - Σ_{n=1..4} c_n (1 - mu^(n/2))` with `mu = sqrt(1 - r^2)` and
`c1..c4` taken from entries 1..4 of the five-element coefficient vector
(the vector that `calcOmega` is summed over).  Used to compare the source
implementation against the specified formula. -/
def Ispec (r : ℝ) (coeffs : Fin 5 → ℝ) : ℝ :=
  1 - coeffs 1 * (1 - (1 - square r) ^ ((1 : ℝ) / 4))
    - coeffs 2 * (1 - (1 - square r) ^ ((2 : ℝ) / 4))
    - coeffs 3 * (1 - (1 - square r) ^ ((3 : ℝ) / 4))
    - coeffs 4 * (1 - (1 - square r) ^ ((4 : ℝ) / 4))

/-- Unit constants for concrete evaluations (the claims hold for any positive
constants; any fixed choice instantiates them). -/
def cUnit : Consts := ⟨1, 1, 1, 1⟩

/-- A concrete model: edge-on orbit (`i = 90` degrees), `p = 0.1`, epoch `0`,
period `1`, all limb-darkening coefficients zero. -/
def mI90 : Model := ⟨1, 1, 0.1, 1, 0, 90, 0, 0, 0, 0⟩

/-- A concrete model: face-on geometry (`i = 0` degrees) with `a = 3`, giving
a projected separation well outside the stellar disk, and nonzero
limb-darkening coefficients. -/
def mI0 : Model := ⟨3, 1, 0.1, 1, 0, 0, 0.3, 0.3, 0.3, 0.3⟩

lemma square_neg (x : ℝ) : square (-x) = square x := by
  rw [square, square]
  ring

lemma cTrunc_neg (x : ℝ) : cTrunc (-x) = -cTrunc x := by
  rcases lt_trichotomy x 0 with h | h | h
  · rw [cTrunc, cTrunc, if_pos (by linarith), if_neg (by linarith), Int.floor_neg]
    push_cast
    ring
  · simp [h, cTrunc]
  · rw [cTrunc, cTrunc, if_neg (by linarith), if_pos (by linarith), Int.ceil_neg]
    push_cast
    ring

lemma modfFrac_neg (x : ℝ) : modfFrac (-x) = -modfFrac x := by
  rw [modfFrac, modfFrac, cTrunc_neg]
  ring

lemma pOf_cUnit_mI90 : pOf cUnit mI90 = 0.1 := by
  simp [pOf, cUnit, mI90]

lemma cosiOf_mI90 : cosiOf mI90 = 0 := by
  have hi : mI90.i = 90 := rfl
  have h : (90 : ℝ) * (Real.pi / 180) = Real.pi / 2 := by ring
  rw [cosiOf, hi, h, Real.cos_pi_div_two]

lemma tOf_cUnit_mI90_zero : tOf cUnit mI90 0 = 0 := by
  simp [tOf, cUnit, mI90]

lemma zOf_cUnit_mI90_zero : zOf cUnit mI90 0 = 0 := by
  rw [zOf, tOf_cUnit_mI90_zero, cosiOf_mI90]
  simp [square]

lemma phaseOf_cUnit_mI90_zero : phaseOf cUnit mI90 0 = 0 := by
  rw [phaseOf, tOf_cUnit_mI90_zero]
  simp [modfFrac, cTrunc]
  norm_num

lemma pOf_cUnit_mI0 : pOf cUnit mI0 = 0.1 := by
  simp [pOf, cUnit, mI0]

lemma cosiOf_mI0 : cosiOf mI0 = 1 := by
  have hi : mI0.i = 0 := rfl
  rw [cosiOf, hi]
  simp

lemma tOf_cUnit_mI0_zero : tOf cUnit mI0 0 = 0 := by
  simp [tOf, cUnit, mI0]

lemma zOf_cUnit_mI0_zero : zOf cUnit mI0 0 = 3 := by
  rw [zOf, tOf_cUnit_mI0_zero, cosiOf_mI0]
  simp [square, normalisedDistance, cUnit, mI0]

/-- Claim C7: for every input `c1..c4`, the derived five-element coefficient
vector satisfies `coeffs[0] + c1 + c2 + c3 + c4 = 1` (entry 0 is constructed
as `1 - c1 - c2 - c3 - c4`). -/
theorem C7_theorem (c1 c2 c3 c4 : ℝ) :
    mkCoeffs c1 c2 c3 c4 0 + c1 + c2 + c3 + c4 = 1 := by
  simp [mkCoeffs]
  ring

/-- Claim C5: for every timestamp whose folded phase lies outside
`(-0.25, 0.25)`, the generated flux is exactly `1`, regardless of `z`, `p`
and the limb-darkening coefficients. -/
theorem C5_theorem (K : Consts) (m : Model) (jd : ℝ)
    (h : ¬(phaseOf K m jd > -0.25 ∧ phaseOf K m jd < 0.25)) :
    fluxAt K m jd = 1 := by
  rw [fluxAt]
  simp only [fluxCore]
  rw [if_neg h]

/-- Witness for C5 at a concrete out-of-transit timestamp (`phase = 0.3`). -/
theorem C5_witness :
    ¬(phaseOf cUnit mI90 0.3 > -0.25 ∧ phaseOf cUnit mI90 0.3 < 0.25) ∧
      fluxAt cUnit mI90 0.3 = 1 := by
  have hph : phaseOf cUnit mI90 0.3 = 0.3 := by
    rw [phaseOf]
    norm_num [tOf, cUnit, mI90, modfFrac, cTrunc]
    rw [abs_of_nonneg (by norm_num : (0 : ℝ) ≤ 3 / 10)]
    norm_num
  have h : ¬(phaseOf cUnit mI90 0.3 > -0.25 ∧ phaseOf cUnit mI90 0.3 < 0.25) := by
    rw [hph]
    norm_num
  exact ⟨h, C5_theorem cUnit mI90 0.3 h⟩

/-- Claim C6: for every timestamp with `z > 1 + p` (for a nonnegative radius
ratio `p`), the generated flux is exactly `1`, regardless of the
limb-darkening coefficients. -/
theorem C6_theorem (K : Consts) (m : Model) (jd : ℝ)
    (hp : 0 ≤ pOf K m) (hz : zOf K m jd > 1 + pOf K m) :
    fluxAt K m jd = 1 := by
  rw [fluxAt]
  by_cases hgate : phaseOf K m jd > -0.25 ∧ phaseOf K m jd < 0.25
  · simp only [fluxCore]
    rw [if_pos hgate, if_neg (not_le.mpr (by linarith)), if_pos hz]
  · simp only [fluxCore]
    rw [if_neg hgate]

/-- Witness for C6: a concrete model with `z = 3`, `p = 0.1` and nonzero
limb-darkening coefficients gives flux exactly `1`. -/
theorem C6_witness :
    0 ≤ pOf cUnit mI0 ∧ zOf cUnit mI0 0 > 1 + pOf cUnit mI0 ∧
      fluxAt cUnit mI0 0 = 1 := by
  have hp : 0 ≤ pOf cUnit mI0 := by
    rw [pOf_cUnit_mI0]
    norm_num
  have hz : zOf cUnit mI0 0 > 1 + pOf cUnit mI0 := by
    rw [pOf_cUnit_mI0, zOf_cUnit_mI0_zero]
    norm_num
  exact ⟨hp, hz, C6_theorem cUnit mI0 0 hp hz⟩

/-- Claim C9: the output flux sequence has the same length as the input
timestamp sequence, and entry `k` of the output is the flux computed from
entry `k` of the input alone (order preserved). -/
theorem C9_theorem (K : Consts) (jd : List ℝ) (m : Model) :
    (GenerateSynthetic K jd m).length = jd.length ∧
      ∀ k : ℕ, (GenerateSynthetic K jd m)[k]? =
        (jd[k]?).map (fun x => fluxAt K m x) := by
  refine ⟨by simp [GenerateSynthetic], fun k => ?_⟩
  simp [GenerateSynthetic]

/-- Counterexample to claim C4 as stated: with inverted bounds
`rlow = 1 > rhigh = 0` the Integrator does not produce an undefined value;
its loop body never runs and it returns exactly `0`. -/
theorem C4_counterexample : IntegratedI 0.001 0.5 0.1 0.1 0.1 1 0 = 0 := by
  have h : numSteps 0.001 1 0 = 0 := by
    rw [numSteps, if_neg (by norm_num)]
  rw [IntegratedI, h]
  simp

/-- Claim C4 (amended): when the Integrator is invoked with `rhigh < rlow`,
the summation loop performs zero iterations and the result is exactly `0`;
no NaN is produced from inverted bounds. -/
theorem C4_theorem (d c1 c2 c3 c4 rlow rhigh : ℝ) (h : rhigh < rlow) :
    IntegratedI d c1 c2 c3 c4 rlow rhigh = 0 := by
  have hn : numSteps d rlow rhigh = 0 := by
    rw [numSteps, if_neg (not_le.mpr h)]
  rw [IntegratedI, hn]
  simp

/-- Witness for the amended C4 at concrete inverted bounds. -/
theorem C4_witness :
    (0 : ℝ) < 1 ∧ IntegratedI 0.001 0 0 0 0 1 0 = 0 :=
  ⟨by norm_num, C4_theorem 0.001 0 0 0 0 1 0 (by norm_num)⟩

/-- Claim C8: the generated flux is symmetric about the mid-transit epoch:
`F(epoch - dt) = F(epoch + dt)` exactly, for every model and offset. -/
theorem C8_theorem (K : Consts) (m : Model) (dt : ℝ) :
    fluxAt K m (m.epoch - dt) = fluxAt K m (m.epoch + dt) := by
  have ht : tOf K m (m.epoch - dt) = -tOf K m (m.epoch + dt) := by
    rw [tOf, tOf]
    ring
  have hz : zOf K m (m.epoch - dt) = zOf K m (m.epoch + dt) := by
    rw [zOf, zOf, ht, mul_neg, Real.sin_neg, Real.cos_neg, square_neg]
  have hph : phaseOf K m (m.epoch - dt) = phaseOf K m (m.epoch + dt) := by
    rw [phaseOf, phaseOf, ht, neg_div, modfFrac_neg, abs_neg]
  rw [fluxAt, fluxAt, hz, hph]

/-- Claim C10: at a valid model with inclination `90` degrees and timestamp
equal to the epoch, the projected separation is `z = 0`, the eclipse gate and
the full-overlap branch conditions hold, and the divisor `4*z*p` of the
normalization `1/(4*z*p)` is zero: the division is unguarded against `z = 0`. -/
theorem C10_theorem :
    (phaseOf cUnit mI90 0 > -0.25 ∧ phaseOf cUnit mI90 0 < 0.25) ∧
      zOf cUnit mI90 0 ≤ 1 - pOf cUnit mI90 ∧
      4 * zOf cUnit mI90 0 * pOf cUnit mI90 = 0 := by
  rw [phaseOf_cUnit_mI90_zero, zOf_cUnit_mI90_zero, pOf_cUnit_mI90]
  norm_num

/-- Claim C1 fails on the code: the vector overloads of `I` and `IntegratedI`
read entries 0..3 of the coefficient vector, while the specified intensity
(and `calcOmega`) use entries 1..4.  With `c1 = 0.5`, `c2 = c3 = c4 = 0` the
packaged vector is `[0.5, 0.5, 0, 0, 0]`; at radius `r = 1` the source
intensity evaluates to `0`, whereas the specified formula gives `1/2`. -/
theorem C1_code_eval :
    Ivec 1 (mkCoeffs 0.5 0 0 0) = 0 ∧ Ispec 1 (mkCoeffs 0.5 0 0 0) = 1 / 2 := by
  have h0 : mkCoeffs 0.5 0 0 0 0 = 0.5 := by
    simp [mkCoeffs]
    norm_num
  have h1 : mkCoeffs 0.5 0 0 0 1 = 0.5 := by
    simp [mkCoeffs]
  have h2 : mkCoeffs 0.5 0 0 0 2 = 0 := by
    simp [mkCoeffs]
  have h3 : mkCoeffs 0.5 0 0 0 3 = 0 := by
    simp [mkCoeffs]
  have h4 : mkCoeffs 0.5 0 0 0 4 = 0 := by
    simp [mkCoeffs]
  have hsq : (1 : ℝ) - square 1 = 0 := by
    rw [square]
    norm_num
  constructor
  · rw [Ivec, h0, h1, h2, h3]
    simp only [I4, hsq]
    rw [Real.zero_rpow (by norm_num : ((1 : ℝ) / 4) ≠ 0),
      Real.zero_rpow (by norm_num : ((2 : ℝ) / 4) ≠ 0),
      Real.zero_rpow (by norm_num : ((3 : ℝ) / 4) ≠ 0),
      Real.zero_rpow (by norm_num : ((4 : ℝ) / 4) ≠ 0)]
    norm_num
  · simp only [Ispec, hsq, h1, h2, h3, h4]
    rw [Real.zero_rpow (by norm_num : ((1 : ℝ) / 4) ≠ 0),
      Real.zero_rpow (by norm_num : ((2 : ℝ) / 4) ≠ 0),
      Real.zero_rpow (by norm_num : ((3 : ℝ) / 4) ≠ 0),
      Real.zero_rpow (by norm_num : ((4 : ℝ) / 4) ≠ 0)]
    norm_num

/-- Counterexample to claim C2 as stated: at an edge-on mid-transit timestamp
(`z = 0`, `p = 0.1`) the eclipse gate and the full-overlap branch conditions
hold, yet the lower bound `rlow = z - p` handed to the Integrator is negative,
so the precondition `0 ≤ rlow` fails at that call. -/
theorem C2_counterexample :
    (phaseOf cUnit mI90 0 > -0.25 ∧ phaseOf cUnit mI90 0 < 0.25) ∧
      zOf cUnit mI90 0 ≤ 1 - pOf cUnit mI90 ∧
      zOf cUnit mI90 0 - pOf cUnit mI90 < 0 := by
  rw [phaseOf_cUnit_mI90_zero, zOf_cUnit_mI90_zero, pOf_cUnit_mI90]
  norm_num

/-- Claim C2 (amended): for `0 ≤ p ≤ 1/2`, the full-overlap call with bounds
`(z-p, z+p)` satisfies `rlow ≤ rhigh ≤ 1`, and the partial-overlap call with
bounds `(z-p, 1)` satisfies `0 ≤ rlow ≤ rhigh = 1`; but `0 ≤ rlow` can fail
at the full-overlap call when `z < p`. -/
theorem C2_theorem (K : Consts) (m : Model) (jd : ℝ)
    (hp0 : 0 ≤ pOf K m) (hp : pOf K m ≤ 1 / 2) :
    (zOf K m jd ≤ 1 - pOf K m →
        zOf K m jd - pOf K m ≤ zOf K m jd + pOf K m ∧ zOf K m jd + pOf K m ≤ 1) ∧
      (1 - pOf K m < zOf K m jd → zOf K m jd ≤ 1 + pOf K m →
        0 ≤ zOf K m jd - pOf K m ∧ zOf K m jd - pOf K m ≤ 1) := by
  constructor
  · intro hz
    constructor <;> linarith
  · intro hz1 hz2
    constructor <;> linarith

/-- Witness for the amended C2 at a concrete model with `p = 0.1`. -/
theorem C2_witness :
    0 ≤ pOf cUnit mI90 ∧ pOf cUnit mI90 ≤ 1 / 2 ∧
      ((zOf cUnit mI90 0 ≤ 1 - pOf cUnit mI90 →
          zOf cUnit mI90 0 - pOf cUnit mI90 ≤ zOf cUnit mI90 0 + pOf cUnit mI90 ∧
            zOf cUnit mI90 0 + pOf cUnit mI90 ≤ 1) ∧
        (1 - pOf cUnit mI90 < zOf cUnit mI90 0 → zOf cUnit mI90 0 ≤ 1 + pOf cUnit mI90 →
          0 ≤ zOf cUnit mI90 0 - pOf cUnit mI90 ∧ zOf cUnit mI90 0 - pOf cUnit mI90 ≤ 1)) := by
  have hp0 : 0 ≤ pOf cUnit mI90 := by
    rw [pOf_cUnit_mI90]
    norm_num
  have hp : pOf cUnit mI90 ≤ 1 / 2 := by
    rw [pOf_cUnit_mI90]
    norm_num
  exact ⟨hp0, hp, C2_theorem cUnit mI90 0 hp0 hp⟩

/-- Claim C3 fails on the code: at exactly `z = 0` (edge-on model, timestamp
equal to the epoch, all limb-darkening coefficients zero, `p = 0.1`), the
full-overlap normalization `1/(4*z*p)` divides by zero.  Under the real
convention `x / 0 = 0` the flux evaluates to exactly `1` (IEEE doubles give
`-inf`), not `0.99 ± 0.002`. -/
theorem C3_code_eval :
    fluxAt cUnit mI90 0 = 1 ∧ ¬|fluxAt cUnit mI90 0 - 0.99| ≤ 0.002 := by
  have h1 : fluxAt cUnit mI90 0 = 1 := by
    rw [fluxAt, phaseOf_cUnit_mI90_zero, zOf_cUnit_mI90_zero, pOf_cUnit_mI90]
    simp only [fluxCore]
    rw [if_pos (by norm_num : (0 : ℝ) > -0.25 ∧ (0 : ℝ) < 0.25),
      if_pos (by norm_num : (0 : ℝ) ≤ 1 - 0.1)]
    norm_num
  have h2 : ¬|fluxAt cUnit mI90 0 - 0.99| ≤ 0.002 := by
    rw [h1, abs_of_nonneg (by norm_num : (0 : ℝ) ≤ 1 - 0.99)]
    norm_num
  exact ⟨h1, h2⟩

end
